import Mathlib

/-!
Shallow embedding of the California-Housing-Prices-Project enrichment pipeline.

Part 1 embeds `src/Step_3_NLP_location_enhancement.py` (geocoding adapter,
regional estimators, location scorer).  Part 2 embeds
`src/Step_2_NLP_description_extraction.py` (selector-based description
extraction, text cleaning, keyword features).

Python floats are modelled as rationals (`ℚ`), optional values as `Option`,
strings as `String` / `List Char`, and each fallible external call as an
explicit outcome datatype consumed by the embedded function.
-/

namespace Housing

/-- Python truthiness test `not x` for an optional float: `None` and `0.0` are
falsy. -/
def pyFalsy (x : Option ℚ) : Prop :=
  x = none ∨ x = some 0

instance (x : Option ℚ) : Decidable (pyFalsy x) :=
  inferInstanceAs (Decidable (x = none ∨ x = some 0))

/-- Python truthiness test `not s` for an optional string: `None` and `""` are
falsy. -/
def pyFalsyStr (s : Option String) : Prop :=
  s = none ∨ s = some ""

instance (s : Option String) : Decidable (pyFalsyStr s) :=
  inferInstanceAs (Decidable (s = none ∨ s = some ""))

/-! ### `LocationEnhancer.geocode_address` (lines 26-38) -/

/-- Outcome of the external geocoding call: timeout, any other failure, or a
normal return carrying an optional first/best match. -/
inductive GeoOutcome where
  | timedOut : GeoOutcome
  | failed : GeoOutcome
  | ok : Option (ℚ × ℚ) → GeoOutcome
deriving DecidableEq, Repr

/-- Embedding of `geocode_address`: timeout and any other exception are caught
and mapped to `(None, None)`; a successful call with no match gives
`(None, None)`; a match gives its latitude and longitude. -/
def geocode_address (_address : String) (outcome : GeoOutcome) : Option ℚ × Option ℚ :=
  match outcome with
  | .timedOut => (none, none)
  | .failed => (none, none)
  | .ok none => (none, none)
  | .ok (some p) => (some p.1, some p.2)

/-! ### `LocationEnhancer.get_estimated_school_ratings` (lines 40-73) -/

/-- Result record of `get_estimated_school_ratings`. -/
structure SchoolRatings where
  nearest_elementary_rating : Option ℤ
  nearest_middle_rating : Option ℤ
  nearest_high_rating : Option ℤ
  school_district : Option String
deriving DecidableEq, Repr

/-- Outer metro bounding box `37.3 <= lat <= 37.8 and -122.5 <= lon <= -121.8`
(line 52). -/
def metroBox (lat lon : ℚ) : Prop :=
  37.3 ≤ lat ∧ lat ≤ 37.8 ∧ -122.5 ≤ lon ∧ lon ≤ -121.8

instance (lat lon : ℚ) : Decidable (metroBox lat lon) :=
  inferInstanceAs (Decidable (37.3 ≤ lat ∧ lat ≤ 37.8 ∧ -122.5 ≤ lon ∧ lon ≤ -121.8))

/-- First longitude sub-band `-122.2 <= lon <= -121.9` (line 54). -/
def eastBayBand (lon : ℚ) : Prop :=
  -122.2 ≤ lon ∧ lon ≤ -121.9

instance (lon : ℚ) : Decidable (eastBayBand lon) :=
  inferInstanceAs (Decidable (-122.2 ≤ lon ∧ lon ≤ -121.9))

/-- Second longitude sub-band `-122.3 <= lon <= -122.1` (line 57). -/
def peninsulaBand (lon : ℚ) : Prop :=
  -122.3 ≤ lon ∧ lon ≤ -122.1

instance (lon : ℚ) : Decidable (peninsulaBand lon) :=
  inferInstanceAs (Decidable (-122.3 ≤ lon ∧ lon ≤ -122.1))

/-- Ratings and district for the first sub-band (lines 55-56). -/
def eastBayResult : SchoolRatings :=
  ⟨some 7, some 7, some 6, some "East Bay Unified"⟩

/-- Ratings and district for the second sub-band (lines 58-59). -/
def peninsulaResult : SchoolRatings :=
  ⟨some 8, some 8, some 8, some "Peninsula Schools"⟩

/-- Ratings and district for the remaining metro-box longitudes (lines 61-62). -/
def bayAreaResult : SchoolRatings :=
  ⟨some 6, some 6, some 7, some "Bay Area Schools"⟩

/-- Ratings and district outside the metro box (lines 65-66). -/
def localResult : SchoolRatings :=
  ⟨some 6, some 6, some 6, some "Local District"⟩

/-- All-`None` school result returned when a coordinate is falsy (lines 43-48). -/
def noneSchoolResult : SchoolRatings :=
  ⟨none, none, none, none⟩

/-- Embedding of `get_estimated_school_ratings`. -/
def get_estimated_school_ratings (lat lon : Option ℚ) : SchoolRatings :=
  if pyFalsy lat ∨ pyFalsy lon then noneSchoolResult
  else
    let la := lat.getD 0
    let lo := lon.getD 0
    if metroBox la lo then
      if eastBayBand lo then eastBayResult
      else if peninsulaBand lo then peninsulaResult
      else bayAreaResult
    else localResult

/-! ### `LocationEnhancer.get_transit_data_google` (lines 75-114) -/

/-- Result record of `get_transit_data_google`. -/
structure TransitData where
  distance_to_transit : ℚ
  nearest_transit_type : String
  public_transit_score : ℤ
deriving DecidableEq, Repr

/-- Outcome of the nearby-places HTTP call: a raised exception, or a response
with a status code and a (possibly empty) result list. -/
inductive PlacesOutcome where
  | error : PlacesOutcome
  | response : ℕ → List String → PlacesOutcome
deriving DecidableEq, Repr

/-- Fixed estimate returned with no key, missing coordinates, an API failure or
an empty result list (lines 79-83 and 110-114). -/
def estimatedTransit : TransitData :=
  ⟨0.8, "Bus", 60⟩

/-- Fixed "found" value returned when the API yields at least one result
(lines 101-105). -/
def foundTransit : TransitData :=
  ⟨0.5, "Transit Station", 80⟩

/-- Embedding of `get_transit_data_google`. -/
def get_transit_data_google (key : Option String) (lat lon : Option ℚ)
    (outcome : PlacesOutcome) : TransitData :=
  if pyFalsyStr key ∨ pyFalsy lat ∨ pyFalsy lon then estimatedTransit
  else
    match outcome with
    | .error => estimatedTransit
    | .response status results =>
      if status = 200 ∧ results ≠ [] then foundTransit else estimatedTransit

/-! ### `LocationEnhancer.get_estimated_demographics` (lines 147-180) -/

/-- Result record of `get_estimated_demographics`. -/
structure Demographics where
  median_household_income : Option ℤ
  population_density : Option ℤ
  crime_index : Option ℤ
  area_type : Option String
deriving DecidableEq, Repr

/-- All-`None` demographics returned when a coordinate is falsy (lines 150-155). -/
def noneDemographics : Demographics :=
  ⟨none, none, none, none⟩

/-- Embedding of `get_estimated_demographics`. -/
def get_estimated_demographics (lat lon : Option ℚ) : Demographics :=
  if pyFalsy lat ∨ pyFalsy lon then noneDemographics
  else
    let la := lat.getD 0
    let lo := lon.getD 0
    if metroBox la lo then
      if peninsulaBand lo then ⟨some 150000, some 3000, some 25, some "Affluent Suburban"⟩
      else ⟨some 100000, some 2500, some 35, some "Suburban"⟩
    else ⟨some 80000, some 1500, some 45, some "Mixed"⟩

/-! ### `create_location_features` (lines 243-272), per record -/

/-- One data row as seen by `create_location_features`; absent (`NaN`) values
are `none`. -/
structure LocationRecord where
  walk_score : Option ℚ
  nearest_elementary_rating : Option ℚ
  nearest_middle_rating : Option ℚ
  nearest_high_rating : Option ℚ
  crime_index : Option ℚ
  distance_to_transit : Option ℚ
deriving DecidableEq, Repr

/-- Pandas elementwise `x >= b`: false on a missing value. -/
def pdGe (x : Option ℚ) (b : ℚ) : Prop :=
  match x with
  | none => False
  | some v => b ≤ v

instance : (x : Option ℚ) → (b : ℚ) → Decidable (pdGe x b)
  | none, _ => isFalse fun h => h
  | some v, b => inferInstanceAs (Decidable (b ≤ v))

/-- Pandas elementwise `x < b`: false on a missing value. -/
def pdLt (x : Option ℚ) (b : ℚ) : Prop :=
  match x with
  | none => False
  | some v => v < b

instance : (x : Option ℚ) → (b : ℚ) → Decidable (pdLt x b)
  | none, _ => isFalse fun h => h
  | some v, b => inferInstanceAs (Decidable (v < b))

/-- Pandas elementwise `x <= b`: false on a missing value. -/
def pdLe (x : Option ℚ) (b : ℚ) : Prop :=
  match x with
  | none => False
  | some v => v ≤ b

instance : (x : Option ℚ) → (b : ℚ) → Decidable (pdLe x b)
  | none, _ => isFalse fun h => h
  | some v, b => inferInstanceAs (Decidable (v ≤ b))

/-- Pandas elementwise `x > b`: false on a missing value. -/
def pdGt (x : Option ℚ) (b : ℚ) : Prop :=
  match x with
  | none => False
  | some v => b < v

instance : (x : Option ℚ) → (b : ℚ) → Decidable (pdGt x b)
  | none, _ => isFalse fun h => h
  | some v, b => inferInstanceAs (Decidable (b < v))

/-- Walk-score tier points (lines 250-252). -/
def walk_points (w : Option ℚ) : ℤ :=
  (if pdGe w 80 then 3 else 0) +
  (if pdGe w 60 ∧ pdLt w 80 then 2 else 0) +
  (if pdGe w 40 ∧ pdLt w 60 then 1 else 0)

/-- Per-level school-rating points (lines 255-257). -/
def school_points (r : Option ℚ) : ℤ :=
  (if pdGe r 8 then 2 else 0) +
  (if pdGe r 6 ∧ pdLt r 8 then 1 else 0)

/-- Crime-index points (lines 260-261). -/
def crime_points (c : Option ℚ) : ℤ :=
  (if pdLe c 30 then 2 else 0) +
  (if pdGt c 30 ∧ pdLe c 50 then 1 else 0)

/-- Transit-distance points (lines 264-265). -/
def transit_points (d : Option ℚ) : ℤ :=
  (if pdLe d 0.5 then 2 else 0) +
  (if pdGt d 0.5 ∧ pdLe d 1.0 then 1 else 0)

/-- Composite `location_score` of one record (lines 247-265). -/
def location_score (r : LocationRecord) : ℤ :=
  walk_points r.walk_score +
  school_points r.nearest_elementary_rating +
  school_points r.nearest_middle_rating +
  school_points r.nearest_high_rating +
  crime_points r.crime_index +
  transit_points r.distance_to_transit

/-- Three-tier `location_category` of one record (lines 268-270); the `<= 3`
assignment is written last in the source, so it is tested first here
(last write wins, and the two conditions are disjoint anyway). -/
def location_category (r : LocationRecord) : String :=
  if location_score r ≤ 3 then "Basic"
  else if 8 ≤ location_score r then "Premium"
  else "Average"


/-! ## Embedding of `src/Step_2_NLP_description_extraction.py` -/

/-- ASCII whitespace class of the regex `\\s` and of Python `str.strip`. -/
def isPySpace (c : Char) : Bool :=
  c = ' ' || c = '\t' || c = '\n' || c = '\r' || c = '\x0b' || c = '\x0c'

/-- Embedding of `re.sub(r'\\s+', ' ', text)` (line 84): every maximal
whitespace run becomes a single space. -/
def collapseWS : List Char → List Char
  | [] => []
  | [c] => if isPySpace c then [' '] else [c]
  | c :: d :: cs =>
    if isPySpace c && isPySpace d then collapseWS (d :: cs)
    else (if isPySpace c then ' ' else c) :: collapseWS (d :: cs)

/-- Leading-whitespace removal, the left half of Python `str.strip`. -/
def lstripWS (s : List Char) : List Char :=
  s.dropWhile isPySpace

/-- Trailing-whitespace removal, the right half of Python `str.strip`. -/
def rstripWS (s : List Char) : List Char :=
  (s.reverse.dropWhile isPySpace).reverse

/-- Embedding of Python `str.strip`. -/
def stripWS (s : List Char) : List Char :=
  rstripWS (lstripWS s)

/-- The fixed literal list `prefixes_to_remove` (lines 87-90), in order. -/
def prefixes_to_remove : List (List Char) :=
  ["Property Description:".toList, "Description:".toList,
   "About this property:".toList, "Property Details:".toList,
   "Listed by:".toList, "Listing provided by:".toList]

/-- One iteration of the prefix-removal loop (lines 92-94):
`text = text[len(prefix):].strip()` when the prefix matches. -/
def removePrefixStep (t : List Char) (p : List Char) : List Char :=
  if p.isPrefixOf t then stripWS (t.drop p.length) else t

/-- The whole prefix-removal loop of `clean_description`. -/
def removePrefixes (t : List Char) : List Char :=
  prefixes_to_remove.foldl removePrefixStep t

/-- Truncation of over-long descriptions (lines 96-98): texts longer than
2000 characters are cut to the first 2000 plus a `"..."` marker. -/
def truncateLong (t : List Char) : List Char :=
  if 2000 < t.length then t.take 2000 ++ "...".toList else t

/-- Embedding of `PropertyDescriptionScraper.clean_description`
(lines 78-100). -/
def clean_description (text : List Char) : List Char :=
  if text = [] then []
  else stripWS (truncateLong (removePrefixes (collapseWS text)))

/-- Python `max(texts, key=len)` step: keep the accumulator unless the next
text is strictly longer, so the first maximal text wins. -/
def longerOf (acc u : List Char) : List Char :=
  if acc.length < u.length then u else acc

/-- Python `max(texts, key=len)` (line 65): the first text of maximal
length. -/
def maxByLen : List (List Char) → List Char
  | [] => []
  | t :: ts => ts.foldl longerOf t

/-- One selector-rule iteration (lines 60-67): when the rule matched any
elements, take that rule's longest text and keep it only when strictly longer
than the current candidate. -/
def selectorStep (desc : List Char) (texts : List (List Char)) : List Char :=
  match texts with
  | [] => desc
  | t :: ts =>
    if desc.length < (maxByLen (t :: ts)).length then maxByLen (t :: ts)
    else desc

/-- The candidate description accumulated across all selector rules, starting
from the empty string (lines 59-67); `results` holds, per selector rule, the
texts of the elements it matched. -/
def selectDescription (results : List (List (List Char))) : List Char :=
  results.foldl selectorStep []

/-- Sentinel returned when the cleaned text is not longer than 50 characters
(line 72). -/
def noDescriptionFound : List Char :=
  "No description found".toList

/-- Sentinel returned when fetching or parsing raises (line 76). -/
def errorSentinel : List Char :=
  "Error extracting description".toList

/-- Success path of `extract_description_from_url` (lines 59-72): select the
candidate text over all rules, clean it, and return it only when strictly
longer than 50 characters. -/
def extract_description_success (results : List (List (List Char))) : List Char :=
  if 50 < (clean_description (selectDescription results)).length then
    clean_description (selectDescription results)
  else noDescriptionFound

/-- The six 0/1 indicators produced by `extract_nlp_features`. -/
structure NlpFeatures where
  has_luxury_keywords : ℕ
  has_renovation_keywords : ℕ
  has_view_keywords : ℕ
  has_outdoor_keywords : ℕ
  has_modern_keywords : ℕ
  has_location_keywords : ℕ
deriving DecidableEq, Repr

/-- The all-zero indicator record (lines 105-112). -/
def zeroFeatures : NlpFeatures :=
  ⟨0, 0, 0, 0, 0, 0⟩

/-- Lexicon of line 117. -/
def luxury_keywords : List (List Char) :=
  ["luxury".toList, "luxurious".toList, "high-end".toList, "premium".toList,
   "upscale".toList, "elegant".toList, "sophisticated".toList,
   "custom".toList, "designer".toList]

/-- Lexicon of line 118. -/
def renovation_keywords : List (List Char) :=
  ["renovated".toList, "updated".toList, "remodeled".toList, "new".toList,
   "fresh".toList, "modern".toList, "contemporary".toList, "upgraded".toList]

/-- Lexicon of line 119. -/
def view_keywords : List (List Char) :=
  ["view".toList, "views".toList, "overlook".toList, "scenic".toList,
   "panoramic".toList, "mountain".toList, "ocean".toList,
   "city lights".toList]

/-- Lexicon of line 120. -/
def outdoor_keywords : List (List Char) :=
  ["yard".toList, "garden".toList, "patio".toList, "deck".toList,
   "pool".toList, "outdoor".toList, "landscaped".toList, "backyard".toList]

/-- Lexicon of line 121. -/
def modern_keywords : List (List Char) :=
  ["smart home".toList, "stainless steel".toList, "granite".toList,
   "hardwood".toList, "marble".toList, "quartz".toList, "tile".toList]

/-- Lexicon of line 122. -/
def location_keywords : List (List Char) :=
  ["walking distance".toList, "close to".toList, "near".toList,
   "convenient".toList, "accessible".toList, "commute".toList,
   "downtown".toList]

/-- Python substring test `needle in hay`: some suffix of `hay` starts with
`needle`. -/
def hasSub (needle : List Char) : List Char → Bool
  | [] => needle.isPrefixOf []
  | c :: t => needle.isPrefixOf (c :: t) || hasSub needle t

/-- Case-insensitive OR-combined membership `any(keyword in desc_lower ...)`
over one lexicon. -/
def anyKeyword (dl : List Char) (ks : List (List Char)) : Bool :=
  ks.any fun k => hasSub k dl

/-- The guard of `extract_nlp_features` (line 104): the text is empty or
equals the "No description found" sentinel; the error sentinel is NOT
tested. -/
def nlpGuard (d : List Char) : Bool :=
  d.isEmpty || d == noDescriptionFound

/-- Embedding of `extract_nlp_features` (lines 102-131). -/
def extract_nlp_features (d : List Char) : NlpFeatures :=
  if nlpGuard d then zeroFeatures
  else
    let dl := d.map Char.toLower
    ⟨if anyKeyword dl luxury_keywords then 1 else 0,
     if anyKeyword dl renovation_keywords then 1 else 0,
     if anyKeyword dl view_keywords then 1 else 0,
     if anyKeyword dl outdoor_keywords then 1 else 0,
     if anyKeyword dl modern_keywords then 1 else 0,
     if anyKeyword dl location_keywords then 1 else 0⟩

/-- Adjacent-pair condition of collapsed text: no two consecutive whitespace
characters. -/
def adjOk (a b : Char) : Prop :=
  isPySpace a = false ∨ isPySpace b = false

/-- Invariant of whitespace-collapsed text: every whitespace character is a
plain space, and no two adjacent characters are both whitespace. -/
def collapsedWS (s : List Char) : Prop :=
  (∀ c ∈ s, isPySpace c = true → c = ' ') ∧ List.Chain' adjOk s

/-! ### Theorems about the location-enhancement embedding -/

/-- Claim C2, counterexample: inside the outer metro box the two explicit
longitude sub-band conditions are NOT mutually exclusive: the longitude
`-122.15` satisfies both the first band `-122.2 <= lon <= -121.9` and the
second band `-122.3 <= lon <= -122.1`; the code resolves the overlap by
`elif` ordering, returning the first band's result. -/
theorem C2_counterexample :
    metroBox 37.5 (-122.15) ∧ eastBayBand (-122.15) ∧ peninsulaBand (-122.15) ∧
    get_estimated_school_ratings (some 37.5) (some (-122.15)) = eastBayResult := by
  have hguard : ¬ (pyFalsy (some (37.5 : ℚ)) ∨ pyFalsy (some (-122.15 : ℚ))) := by
    norm_num [pyFalsy]
    exact ⟨Option.some_ne_none _, Option.some_ne_none _⟩
  have hbox : metroBox 37.5 (-122.15) := by norm_num [metroBox]
  have hEB : eastBayBand (-122.15) := by norm_num [eastBayBand]
  refine ⟨hbox, hEB, by norm_num [peninsulaBand], ?_⟩
  simp [get_estimated_school_ratings, hguard, hbox, hEB]

/-- Claim C2, amended: inside the outer metro box the three sub-band branches
are mutually exclusive only as dispatched (first match wins, so the second
branch applies only where the first fails); the raw band predicates overlap on
`[-122.2, -122.1]`, and the three outcomes are pairwise distinct. -/
theorem C2_amended (lat lon : ℚ) (hbox : metroBox lat lon) :
    (eastBayBand lon →
        get_estimated_school_ratings (some lat) (some lon) = eastBayResult) ∧
    (¬ eastBayBand lon → peninsulaBand lon →
        get_estimated_school_ratings (some lat) (some lon) = peninsulaResult) ∧
    (¬ eastBayBand lon → ¬ peninsulaBand lon →
        get_estimated_school_ratings (some lat) (some lon) = bayAreaResult) ∧
    eastBayResult ≠ peninsulaResult ∧ eastBayResult ≠ bayAreaResult ∧
    peninsulaResult ≠ bayAreaResult := by
  obtain ⟨hb1, hb2, hb3, hb4⟩ := hbox
  have hlat : lat ≠ 0 := by intro h; rw [h] at hb1; norm_num at hb1
  have hlon : lon ≠ 0 := by intro h; rw [h] at hb4; norm_num at hb4
  have hguard : ¬ (pyFalsy (some lat) ∨ pyFalsy (some lon)) := by
    rintro (h | h)
    · simp [pyFalsy] at h; exact hlat h
    · simp [pyFalsy] at h; exact hlon h
  have hbox' : metroBox lat lon := ⟨hb1, hb2, hb3, hb4⟩
  refine ⟨?_, ?_, ?_, by decide, by decide, by decide⟩
  · intro hEB
    simp [get_estimated_school_ratings, hguard, hbox', hEB]
  · intro hnEB hPen
    simp [get_estimated_school_ratings, hguard, hbox', hnEB, hPen]
  · intro hnEB hnPen
    simp [get_estimated_school_ratings, hguard, hbox', hnEB, hnPen]

/-- Witness for `C2_amended` at the concrete coordinate `(37.5, -122.25)`,
which lies in the metro box and only in the second sub-band. -/
theorem C2_amended_witness :
    get_estimated_school_ratings (some (37.5 : ℚ)) (some (-122.25 : ℚ)) =
      peninsulaResult :=
  (C2_amended 37.5 (-122.25) (by norm_num [metroBox])).2.1
    (by norm_num [eastBayBand]) (by norm_num [peninsulaBand])

/-- Claim C6: a record with walk score 80, all school ratings 8, crime index
30 and transit distance 0.5 collects 3 + 2 + 2 + 2 + 2 + 2 = 13 points (all
tier boundaries inclusive) and is categorised "Premium". -/
theorem C6_boundary_score :
    location_score ⟨some 80, some 8, some 8, some 8, some 30, some 0.5⟩ = 13 ∧
    location_category ⟨some 80, some 8, some 8, some 8, some 30, some 0.5⟩ =
      "Premium" := by
  have hs : location_score ⟨some 80, some 8, some 8, some 8, some 30, some 0.5⟩ = 13 := by
    norm_num [location_score, walk_points, school_points, crime_points,
      transit_points, pdGe, pdLt, pdLe, pdGt]
  refine ⟨hs, ?_⟩
  unfold location_category
  rw [hs]
  norm_num

/-- Claim C7: `get_transit_data_google` returns the fixed estimate whenever
the key or a coordinate is falsy, the fixed "found" value when the configured
call returns status 200 with at least one result, the fixed estimate on a
raised error, a non-200 status or an empty result list, and in every case one
of the two fixed records (it never raises). -/
theorem C7_transit_fallback :
    (∀ (key : Option String) (lat lon : Option ℚ) (outcome : PlacesOutcome),
        (pyFalsyStr key ∨ pyFalsy lat ∨ pyFalsy lon) →
        get_transit_data_google key lat lon outcome = estimatedTransit) ∧
    (∀ (key : Option String) (lat lon : Option ℚ) (status : ℕ)
        (results : List String),
        ¬ (pyFalsyStr key ∨ pyFalsy lat ∨ pyFalsy lon) →
        status = 200 → results ≠ [] →
        get_transit_data_google key lat lon (.response status results) =
          foundTransit) ∧
    (∀ (key : Option String) (lat lon : Option ℚ),
        get_transit_data_google key lat lon .error = estimatedTransit) ∧
    (∀ (key : Option String) (lat lon : Option ℚ) (status : ℕ)
        (results : List String),
        status ≠ 200 ∨ results = [] →
        get_transit_data_google key lat lon (.response status results) =
          estimatedTransit) ∧
    (∀ (key : Option String) (lat lon : Option ℚ) (outcome : PlacesOutcome),
        get_transit_data_google key lat lon outcome = estimatedTransit ∨
        get_transit_data_google key lat lon outcome = foundTransit) := by
  refine ⟨?_, ?_, ?_, ?_, ?_⟩
  · intro key lat lon outcome h
    simp [get_transit_data_google, h]
  · intro key lat lon status results h h200 hres
    subst h200
    simp [get_transit_data_google, h, hres]
  · intro key lat lon
    by_cases hg : pyFalsyStr key ∨ pyFalsy lat ∨ pyFalsy lon <;>
      simp [get_transit_data_google, hg]
  · intro key lat lon status results h
    by_cases hg : pyFalsyStr key ∨ pyFalsy lat ∨ pyFalsy lon
    · simp [get_transit_data_google, hg]
    · rcases h with h | h <;> simp [get_transit_data_google, hg, h]
  · intro key lat lon outcome
    by_cases hg : pyFalsyStr key ∨ pyFalsy lat ∨ pyFalsy lon
    · left; simp [get_transit_data_google, hg]
    · cases outcome with
      | error => left; simp [get_transit_data_google, hg]
      | response status results =>
        by_cases hc : status = 200 ∧ results ≠ []
        · right; simp [get_transit_data_google, hg, hc]
        · left; simp [get_transit_data_google, hg, hc]

/-- Witness for `C7_transit_fallback` at concrete inputs: a missing key gives
the estimate, and a configured key with one 200-status result gives the
"found" value. -/
theorem C7_transit_fallback_witness :
    get_transit_data_google none (some 37) (some (-122)) .error =
      estimatedTransit ∧
    get_transit_data_google (some "k") (some 37) (some (-122))
      (.response 200 ["station"]) = foundTransit :=
  ⟨C7_transit_fallback.1 none (some 37) (some (-122)) .error
      (Or.inl (Or.inl rfl)),
   C7_transit_fallback.2.1 (some "k") (some 37) (some (-122)) 200 ["station"]
      (by simp [pyFalsyStr, pyFalsy]) rfl (by simp)⟩

/-- Claim C8: `geocode_address` maps a timeout, any other geocoder failure,
and a match-free success all to `(None, None)`, and a success with a match to
that match's latitude and longitude; it is total over all modelled outcomes. -/
theorem C8_geocode_total :
    (∀ address : String, geocode_address address .timedOut = (none, none)) ∧
    (∀ address : String, geocode_address address .failed = (none, none)) ∧
    (∀ address : String, geocode_address address (.ok none) = (none, none)) ∧
    (∀ (address : String) (la lo : ℚ),
        geocode_address address (.ok (some (la, lo))) = (some la, some lo)) :=
  ⟨fun _ => rfl, fun _ => rfl, fun _ => rfl, fun _ _ _ => rfl⟩

/-- Closed form of the walk-score tier rules. -/
theorem walk_points_closed (w : ℚ) :
    walk_points (some w) =
      if 80 ≤ w then 3 else if 60 ≤ w then 2 else if 40 ≤ w then 1 else 0 := by
  unfold walk_points
  simp only [pdGe, pdLt]
  rcases le_or_lt 80 w with h80 | h80
  · have h60 : (60 : ℚ) ≤ w := by linarith
    have hn80 : ¬ w < 80 := not_lt.mpr h80
    have hn60 : ¬ w < 60 := by push_neg; linarith
    simp [h80, h60, hn80, hn60]
  · rcases le_or_lt 60 w with h60 | h60
    · have hnn : ¬ (80 : ℚ) ≤ w := not_le.mpr h80
      have hn60 : ¬ w < 60 := not_lt.mpr h60
      simp [h60, hnn, hn60, h80]
    · rcases le_or_lt 40 w with h40 | h40
      · have hn80 : ¬ (80 : ℚ) ≤ w := by push_neg; linarith
        have hn60 : ¬ (60 : ℚ) ≤ w := not_le.mpr h60
        simp [h40, h60, hn80, hn60]
      · have hn80 : ¬ (80 : ℚ) ≤ w := by push_neg; linarith
        have hn60 : ¬ (60 : ℚ) ≤ w := by push_neg; linarith
        have hn40 : ¬ (40 : ℚ) ≤ w := not_le.mpr h40
        simp [hn80, hn60, hn40]

/-- Claim C9: the walk-score contribution to `location_score` is monotone in
the walk score, across the tier boundaries 40, 60 and 80. -/
theorem C9_walk_tier_mono (w1 w2 : ℚ) (h : w1 ≤ w2) :
    walk_points (some w1) ≤ walk_points (some w2) := by
  rw [walk_points_closed, walk_points_closed]
  split_ifs <;> linarith

/-- Witness for `C9_walk_tier_mono` across the 80-point tier boundary. -/
theorem C9_walk_tier_mono_witness :
    walk_points (some (79 : ℚ)) ≤ walk_points (some (80 : ℚ)) :=
  C9_walk_tier_mono 79 80 (by norm_num)

/-- Claim C10: a coordinate equal to `0.0` is treated as missing by the
Python truthiness guards: the school and demographic estimators return their
all-`None` records and the transit estimator returns the fixed estimate. -/
theorem C10_zero_coordinate_missing (lat lon : Option ℚ)
    (h : lat = some 0 ∨ lon = some 0) :
    get_estimated_school_ratings lat lon = noneSchoolResult ∧
    get_estimated_demographics lat lon = noneDemographics ∧
    ∀ (key : Option String) (outcome : PlacesOutcome),
      get_transit_data_google key lat lon outcome = estimatedTransit := by
  have hg : pyFalsy lat ∨ pyFalsy lon := by
    rcases h with h | h
    · exact Or.inl (Or.inr h)
    · exact Or.inr (Or.inr h)
  refine ⟨?_, ?_, ?_⟩
  · unfold get_estimated_school_ratings
    rw [if_pos hg]
  · unfold get_estimated_demographics
    rw [if_pos hg]
  · intro key outcome
    unfold get_transit_data_google
    rw [if_pos (Or.inr hg)]

/-- Witness for `C10_zero_coordinate_missing` at latitude exactly `0.0` with a
valid Bay Area longitude. -/
theorem C10_zero_coordinate_missing_witness :
    get_estimated_school_ratings (some (0 : ℚ)) (some (-122.2 : ℚ)) =
      noneSchoolResult :=
  (C10_zero_coordinate_missing (some 0) (some (-122.2)) (Or.inl rfl)).1

/-! ### Whitespace-collapse invariants for `clean_description` -/

/-- Every character of `collapseWS s` that is whitespace is a plain space. -/
theorem collapseWS_chars : ∀ s : List Char, ∀ c ∈ collapseWS s, isPySpace c = true → c = ' '
  | [] => by simp [collapseWS]
  | [a] => by
    simp only [collapseWS]
    split_ifs with h <;> intro c hc hsp
    · simp only [List.mem_singleton] at hc
      exact hc
    · simp only [List.mem_singleton] at hc
      subst hc
      exact absurd hsp (by simp [h])
  | a :: b :: cs => by
    simp only [collapseWS]
    split_ifs with h h2 <;> intro c hc hsp
    · exact collapseWS_chars (b :: cs) c hc hsp
    · rcases List.mem_cons.mp hc with rfl | hc'
      · rfl
      · exact collapseWS_chars (b :: cs) c hc' hsp
    · rcases List.mem_cons.mp hc with rfl | hc'
      · exact absurd hsp (by simp [h2])
      · exact collapseWS_chars (b :: cs) c hc' hsp

/-- When the first character is not whitespace, `collapseWS` keeps it in
place. -/
theorem collapseWS_head_nonspace (d : Char) (cs : List Char)
    (h : isPySpace d = false) : (collapseWS (d :: cs)).head? = some d := by
  cases cs with
  | nil => simp [collapseWS, h]
  | cons e es => simp [collapseWS, h]

/-- The output of `collapseWS` never has two adjacent whitespace
characters. -/
theorem collapseWS_chain : ∀ s : List Char, List.Chain' adjOk (collapseWS s)
  | [] => by simp [collapseWS]
  | [a] => by
    simp only [collapseWS]
    split_ifs <;> exact List.chain'_singleton _
  | a :: b :: cs => by
    simp only [collapseWS]
    split_ifs with h h2
    · exact collapseWS_chain (b :: cs)
    · refine List.chain'_cons'.mpr ⟨?_, collapseWS_chain (b :: cs)⟩
      intro y hy
      have hb : isPySpace b = false := by
        cases hbb : isPySpace b with
        | false => rfl
        | true => exact absurd (by simp [h2, hbb]) h
      rw [collapseWS_head_nonspace b cs hb] at hy
      obtain rfl : b = y := by simpa using hy
      exact Or.inr hb
    · refine List.chain'_cons'.mpr ⟨?_, collapseWS_chain (b :: cs)⟩
      intro y hy
      exact Or.inl (by simpa using h2)

/-- `collapseWS` output satisfies the collapsed-whitespace invariant. -/
theorem collapseWS_collapsed (s : List Char) : collapsedWS (collapseWS s) :=
  ⟨collapseWS_chars s, collapseWS_chain s⟩

/-- On already-collapsed text, `collapseWS` is the identity. -/
theorem collapseWS_eq_self : ∀ s : List Char, collapsedWS s → collapseWS s = s
  | [], _ => rfl
  | [a], h => by
    simp only [collapseWS]
    split_ifs with hs
    · rw [h.1 a (List.mem_singleton_self a) hs]
    · rfl
  | a :: b :: cs, h => by
    have hadj : adjOk a b := (List.chain'_cons.mp h.2).1
    have htail : collapsedWS (b :: cs) :=
      ⟨fun c hc => h.1 c (List.mem_cons_of_mem a hc), (List.chain'_cons.mp h.2).2⟩
    have hnotboth : ¬ ((isPySpace a && isPySpace b) = true) := by
      rcases hadj with ha | hb
      · simp [ha]
      · simp [hb]
    have hstep : collapseWS (a :: b :: cs) =
        (if isPySpace a then ' ' else a) :: collapseWS (b :: cs) := by
      simp only [collapseWS]
      rw [if_neg hnotboth]
    rw [hstep, collapseWS_eq_self (b :: cs) htail]
    congr 1
    split_ifs with hs
    · exact (h.1 a (List.mem_cons_self a (b :: cs)) hs).symm
    · rfl

/-! ### Preservation of the collapsed invariant along the cleaning pipeline -/

/-- The collapsed invariant restricts to any `take`. -/
theorem collapsedWS_take (s : List Char) (n : ℕ) (h : collapsedWS s) :
    collapsedWS (s.take n) :=
  ⟨fun c hc => h.1 c (List.take_subset n s hc), h.2.take n⟩

/-- The collapsed invariant restricts to any `drop`. -/
theorem collapsedWS_drop (s : List Char) (n : ℕ) (h : collapsedWS s) :
    collapsedWS (s.drop n) :=
  ⟨fun c hc => h.1 c (List.drop_subset n s hc), h.2.drop n⟩

/-- The collapsed invariant restricts to a `dropWhile`. -/
theorem collapsedWS_dropWhile (s : List Char) (p : Char → Bool)
    (h : collapsedWS s) : collapsedWS (s.dropWhile p) :=
  ⟨fun c hc => h.1 c ((List.dropWhile_sublist p).subset hc),
   h.2.suffix (List.dropWhile_suffix p)⟩

/-- The collapsed invariant is stable under reversal. -/
theorem collapsedWS_reverse (s : List Char) (h : collapsedWS s) :
    collapsedWS s.reverse := by
  refine ⟨fun c hc => h.1 c (List.mem_reverse.mp hc), ?_⟩
  rw [List.chain'_reverse]
  exact h.2.imp fun a b hab => Or.symm hab

/-- The collapsed invariant is stable under appending the `"..."` marker. -/
theorem collapsedWS_append_dots (s : List Char) (h : collapsedWS s) :
    collapsedWS (s ++ "...".toList) := by
  constructor
  · intro c hc hsp
    rcases List.mem_append.mp hc with hc' | hc'
    · exact h.1 c hc' hsp
    · have : c = '.' := by
        simp only [show "...".toList = ['.', '.', '.'] from rfl] at hc'
        simp at hc'
        exact hc'
      subst this
      exact absurd hsp (by decide)
  · refine List.chain'_append.mpr ⟨h.2, ?_, ?_⟩
    · show List.Chain' adjOk ['.', '.', '.']
      refine List.Chain'.cons (Or.inl rfl) (List.Chain'.cons (Or.inl rfl) ?_)
      exact List.chain'_singleton _
    · intro x _ y hy
      simp only [show ("...".toList).head? = some '.' from rfl] at hy
      obtain rfl : ('.' : Char) = y := by simpa using hy
      exact Or.inr rfl

/-- The collapsed invariant is stable under both strips. -/
theorem collapsedWS_stripWS (s : List Char) (h : collapsedWS s) :
    collapsedWS (stripWS s) := by
  unfold stripWS rstripWS lstripWS
  exact collapsedWS_reverse _ (collapsedWS_dropWhile _ _ (collapsedWS_reverse _
    (collapsedWS_dropWhile _ _ h)))

/-- The collapsed invariant is stable under one prefix-removal step. -/
theorem collapsedWS_removePrefixStep (t p : List Char) (h : collapsedWS t) :
    collapsedWS (removePrefixStep t p) := by
  unfold removePrefixStep
  split_ifs
  · exact collapsedWS_stripWS _ (collapsedWS_drop _ _ h)
  · exact h

/-- The collapsed invariant is stable under the whole prefix-removal fold. -/
theorem collapsedWS_foldl_removePrefixStep :
    ∀ (L : List (List Char)) (t : List Char), collapsedWS t →
      collapsedWS (L.foldl removePrefixStep t)
  | [], _, h => h
  | p :: L, t, h =>
    collapsedWS_foldl_removePrefixStep L _ (collapsedWS_removePrefixStep t p h)

/-- The collapsed invariant is stable under truncation. -/
theorem collapsedWS_truncateLong (t : List Char) (h : collapsedWS t) :
    collapsedWS (truncateLong t) := by
  unfold truncateLong
  split_ifs
  · exact collapsedWS_append_dots _ (collapsedWS_take _ _ h)
  · exact h

/-- The output of `clean_description` always satisfies the collapsed
invariant. -/
theorem collapsedWS_clean (x : List Char) : collapsedWS (clean_description x) := by
  unfold clean_description
  split_ifs
  · exact ⟨by simp, List.chain'_nil⟩
  · exact collapsedWS_stripWS _ (collapsedWS_truncateLong _
      (collapsedWS_foldl_removePrefixStep _ _ (collapseWS_collapsed x)))

/-! ### Strip and prefix-removal identities -/

/-- `dropWhile` on a list whose head does not satisfy the predicate is the
identity. -/
theorem dropWhile_eq_self_of_head (p : Char → Bool) (l : List Char)
    (h : ∀ c ∈ l.head?, p c = false) : l.dropWhile p = l := by
  cases l with
  | nil => rfl
  | cons a t =>
    rw [List.dropWhile_cons, if_neg]
    simp [h a (by simp)]

/-- `dropWhile` is idempotent. -/
theorem dropWhile_dropWhile (p : Char → Bool) :
    ∀ l : List Char, (l.dropWhile p).dropWhile p = l.dropWhile p
  | [] => rfl
  | a :: t => by
    rw [List.dropWhile_cons]
    split_ifs with ha
    · exact dropWhile_dropWhile p t
    · rw [List.dropWhile_cons, if_neg ha]

/-- `lstripWS` is idempotent. -/
theorem lstripWS_lstripWS (s : List Char) : lstripWS (lstripWS s) = lstripWS s :=
  dropWhile_dropWhile isPySpace s

/-- `rstripWS` is idempotent. -/
theorem rstripWS_rstripWS (s : List Char) : rstripWS (rstripWS s) = rstripWS s := by
  unfold rstripWS
  rw [List.reverse_reverse, dropWhile_dropWhile]

/-- `lstripWS` fixes a string when it fixes a right-stripped version of it:
removing trailing whitespace cannot create leading whitespace. -/
theorem lstripWS_rstripWS (t : List Char) (h : lstripWS t = t) :
    lstripWS (rstripWS t) = rstripWS t := by
  have hpre : rstripWS t <+: t := by
    have hs : t.reverse.dropWhile isPySpace <:+ t.reverse :=
      List.dropWhile_suffix _
    have := List.reverse_prefix.mpr hs
    rwa [List.reverse_reverse] at this
  cases hr : rstripWS t with
  | nil => rfl
  | cons c v =>
    rw [hr] at hpre
    obtain ⟨u, hu⟩ := hpre
    have hc : isPySpace c = false := by
      cases hcc : isPySpace c with
      | false => rfl
      | true =>
        exfalso
        have ht : t = c :: (v ++ u) := by rw [← hu, List.cons_append]
        have hdrop : lstripWS t = lstripWS (v ++ u) := by
          rw [ht]
          show List.dropWhile isPySpace (c :: (v ++ u)) = _
          rw [List.dropWhile_cons, if_pos (by simp [hcc])]
          rfl
        have hlen : (lstripWS (v ++ u)).length ≤ (v ++ u).length :=
          (List.dropWhile_sublist _).length_le
        rw [← hdrop, h, ht] at hlen
        rw [List.length_cons] at hlen
        omega
    rw [lstripWS, List.dropWhile_cons, if_neg (by simp [hc])]

/-- `stripWS` is idempotent. -/
theorem stripWS_stripWS (s : List Char) : stripWS (stripWS s) = stripWS s := by
  show rstripWS (lstripWS (rstripWS (lstripWS s))) = rstripWS (lstripWS s)
  rw [lstripWS_rstripWS (lstripWS s) (lstripWS_lstripWS s), rstripWS_rstripWS]

/-- `rstripWS` on a list whose last character is not whitespace is the
identity. -/
theorem rstripWS_eq_self_of_getLast (s : List Char)
    (h : ∀ c ∈ s.getLast?, isPySpace c = false) : rstripWS s = s := by
  unfold rstripWS
  rw [dropWhile_eq_self_of_head _ _ (by rw [List.head?_reverse]; exact h),
    List.reverse_reverse]

/-- `stripWS` on a list with non-whitespace ends is the identity. -/
theorem stripWS_eq_self (s : List Char)
    (hh : ∀ c ∈ s.head?, isPySpace c = false)
    (hl : ∀ c ∈ s.getLast?, isPySpace c = false) : stripWS s = s := by
  show rstripWS (lstripWS s) = s
  have h1 : lstripWS s = s := dropWhile_eq_self_of_head isPySpace s hh
  rw [h1, rstripWS_eq_self_of_getLast _ hl]

/-- A prefix-removal step with a non-matching prefix is the identity. -/
theorem removePrefixStep_of_not (t p : List Char) (h : p.isPrefixOf t = false) :
    removePrefixStep t p = t := by
  simp [removePrefixStep, h]

/-- The prefix-removal fold with no matching prefix is the identity. -/
theorem foldl_removePrefixStep_id :
    ∀ (L : List (List Char)) (t : List Char),
      (∀ p ∈ L, p.isPrefixOf t = false) → L.foldl removePrefixStep t = t
  | [], _, _ => rfl
  | p :: L, t, h => by
    rw [List.foldl_cons, removePrefixStep_of_not t p (h p (List.mem_cons_self p L))]
    exact foldl_removePrefixStep_id L t fun q hq => h q (List.mem_cons_of_mem p hq)

/-- `removePrefixes` with no matching prefix is the identity. -/
theorem removePrefixes_eq_self (t : List Char)
    (h : ∀ p ∈ prefixes_to_remove, p.isPrefixOf t = false) :
    removePrefixes t = t :=
  foldl_removePrefixStep_id prefixes_to_remove t h

/-! ### Claim C1: idempotence of `clean_description` -/

/-- Evaluation form of `clean_description` on a non-empty input. -/
theorem clean_description_ne_nil (t : List Char) (ht : t ≠ []) :
    clean_description t = stripWS (truncateLong (removePrefixes (collapseWS t))) := by
  simp only [clean_description, if_neg ht]

/-- Claim C1, amended: `clean_description` is idempotent on every input whose
cleaned form does not again start with a removable prefix and is either at
most 2000 characters long or exactly 2003 characters ending in the
truncation marker; the excluded cases are exactly the two failure modes
shown in the counterexample. -/
theorem C1_amended (x : List Char)
    (h1 : ∀ p ∈ prefixes_to_remove, p.isPrefixOf (clean_description x) = false)
    (h2 : (clean_description x).length ≤ 2000 ∨
      ((clean_description x).length = 2003 ∧
        "...".toList <:+ clean_description x)) :
    clean_description (clean_description x) = clean_description x := by
  by_cases hnil : clean_description x = []
  · rw [hnil]
    rfl
  · have hx : x ≠ [] := by
      rintro rfl
      exact hnil rfl
    have hA : collapseWS (clean_description x) = clean_description x :=
      collapseWS_eq_self _ (collapsedWS_clean x)
    have hB : removePrefixes (clean_description x) = clean_description x :=
      removePrefixes_eq_self _ h1
    have hD : stripWS (clean_description x) = clean_description x := by
      rw [clean_description_ne_nil x hx, stripWS_stripWS]
    have hC : truncateLong (clean_description x) = clean_description x := by
      rcases h2 with hle | ⟨hlen, hsuf⟩
      · rw [truncateLong, if_neg (by omega)]
      · obtain ⟨u, hu⟩ := hsuf
        have hulen : u.length = 2000 := by
          have hl := congrArg List.length hu
          rw [List.length_append] at hl
          rw [show ("...".toList).length = 3 from rfl] at hl
          omega
        rw [truncateLong, if_pos (by omega), ← hu, List.take_left' hulen]
    rw [clean_description_ne_nil _ hnil, hA, hB, hC, hD]

/-- Witness for `C1_amended` on a short already-clean text. -/
theorem C1_amended_witness :
    clean_description (clean_description "hello world sample text".toList) =
      clean_description "hello world sample text".toList :=
  C1_amended _ (by decide) (Or.inl (by decide))

/-- The characters of `'a'`-replicates satisfy the space-normalisation half of
the collapsed invariant. -/
theorem charsOk_replicate_a (n : ℕ) :
    ∀ c ∈ List.replicate n 'a', isPySpace c = true → c = ' ' := by
  intro c hc hsp
  rw [List.eq_of_mem_replicate hc] at hsp
  exact absurd hsp (by decide)

/-- `'a'`-replicates satisfy the collapsed invariant. -/
theorem collapsedWS_replicate_a (n : ℕ) : collapsedWS (List.replicate n 'a') :=
  ⟨charsOk_replicate_a n, List.chain'_replicate_of_rel n (Or.inl (by decide))⟩

/-- Head of a non-empty `'a'`-replicate followed by anything. -/
theorem head_replicate_append (n : ℕ) (l : List Char) :
    (List.replicate (n + 1) 'a' ++ l).head? = some 'a' := by
  rw [List.replicate_succ, List.cons_append, List.head?_cons]

/-- The last character of anything ending in the `"..."` marker is not
whitespace. -/
theorem getLast_append_dots (l : List Char) :
    ∀ c ∈ (l ++ "...".toList).getLast?, isPySpace c = false := by
  intro c hc
  rw [List.getLast?_append, show ("...".toList).getLast? = some '.' from rfl] at hc
  simp only [Option.or_some] at hc
  obtain rfl : ('.' : Char) = c := by simpa using hc
  decide

/-- No removable prefix matches a text starting with a space. -/
theorem prefixes_fail_space (t : List Char) :
    ∀ p ∈ prefixes_to_remove, p.isPrefixOf (' ' :: t) = false := by
  intro p hp
  simp only [prefixes_to_remove, List.mem_cons, List.not_mem_nil, or_false] at hp
  rcases hp with rfl | rfl | rfl | rfl | rfl | rfl <;> rfl

/-- No removable prefix matches a text starting with `'a'`. -/
theorem prefixes_fail_a (t : List Char) :
    ∀ p ∈ prefixes_to_remove, p.isPrefixOf ('a' :: t) = false := by
  intro p hp
  simp only [prefixes_to_remove, List.mem_cons, List.not_mem_nil, or_false] at hp
  rcases hp with rfl | rfl | rfl | rfl | rfl | rfl <;> rfl

/-- Cleaning the 2006-character input of one leading space and 2005 `'a'`s
truncates, appends the marker and then strips the leading space, producing
2002 characters. -/
theorem clean_long_input :
    clean_description (' ' :: List.replicate 2005 'a') =
      List.replicate 1999 'a' ++ "...".toList := by
  have hcoll : collapsedWS (' ' :: List.replicate 2005 'a') := by
    constructor
    · intro c hc hsp
      rcases List.mem_cons.mp hc with rfl | hc'
      · rfl
      · exact charsOk_replicate_a 2005 c hc' hsp
    · refine List.chain'_cons'.mpr ⟨?_, (collapsedWS_replicate_a 2005).2⟩
      intro y hy
      rw [show (List.replicate 2005 'a').head? = some 'a' from by
        rw [List.replicate_succ, List.head?_cons]] at hy
      obtain rfl : ('a' : Char) = y := by simpa using hy
      exact Or.inr (by decide)
  rw [clean_description_ne_nil _ (List.cons_ne_nil _ _),
    collapseWS_eq_self _ hcoll,
    removePrefixes_eq_self _ (prefixes_fail_space _),
    truncateLong, if_pos (by norm_num [List.length_replicate])]
  have htake : (' ' :: List.replicate 2005 'a').take 2000 =
      ' ' :: List.replicate 1999 'a' := by
    rw [show (2000 : ℕ) = 1999 + 1 from rfl, List.take_succ_cons,
      List.take_replicate]
    norm_num
  rw [htake, List.cons_append]
  show rstripWS (lstripWS _) = _
  have hl : lstripWS (' ' :: (List.replicate 1999 'a' ++ "...".toList)) =
      List.replicate 1999 'a' ++ "...".toList := by
    show List.dropWhile isPySpace _ = _
    rw [List.dropWhile_cons, if_pos (by decide)]
    refine dropWhile_eq_self_of_head _ _ ?_
    intro c hc
    rw [show (List.replicate 1999 'a' ++ "...".toList).head? = some 'a' from
      head_replicate_append 1998 _] at hc
    obtain rfl : ('a' : Char) = c := by simpa using hc
    decide
  rw [hl]
  exact rstripWS_eq_self_of_getLast _ (getLast_append_dots _)

/-- Re-cleaning the cleaned long input truncates again, growing the text to
2003 characters: one more character than before. -/
theorem clean_long_input_twice :
    clean_description (List.replicate 1999 'a' ++ "...".toList) =
      (List.replicate 1999 'a' ++ ['.']) ++ "...".toList := by
  have hcons : List.replicate 1999 'a' ++ "...".toList =
      'a' :: (List.replicate 1998 'a' ++ "...".toList) := by
    rw [show List.replicate 1999 'a' = 'a' :: List.replicate 1998 'a' from
      List.replicate_succ 'a' 1998, List.cons_append]
  have hcoll : collapsedWS (List.replicate 1999 'a' ++ "...".toList) :=
    collapsedWS_append_dots _ (collapsedWS_replicate_a 1999)
  rw [clean_description_ne_nil _ (by rw [hcons]; exact List.cons_ne_nil _ _),
    collapseWS_eq_self _ hcoll,
    removePrefixes_eq_self _ (by rw [hcons]; exact prefixes_fail_a _),
    truncateLong,
    if_pos (by norm_num [List.length_append, List.length_replicate])]
  have htake : (List.replicate 1999 'a' ++ "...".toList).take 2000 =
      List.replicate 1999 'a' ++ ['.'] := by
    rw [List.take_append_eq_append_take, List.take_replicate]
    norm_num [List.length_replicate]
  rw [htake]
  refine stripWS_eq_self _ ?_ (getLast_append_dots _)
  intro c hc
  rw [show ((List.replicate 1999 'a' ++ ['.']) ++ "...".toList).head? = some 'a'
    from by rw [List.append_assoc]; exact head_replicate_append 1998 _] at hc
  obtain rfl : ('a' : Char) = c := by simpa using hc
  decide

/-- Claim C1, counterexample: `clean_description` is NOT idempotent.  A text
whose prefix-stripped form again starts with a removable prefix loses the
second prefix only on re-cleaning, and the 2006-character input of a space
and 2005 `'a'`s cleans to 2002 characters, which a second clean truncates
again to 2003 characters. -/
theorem C1_counterexample :
    clean_description (clean_description
        "Description:Property Description: hi".toList) ≠
      clean_description "Description:Property Description: hi".toList ∧
    clean_description (clean_description (' ' :: List.replicate 2005 'a')) ≠
      clean_description (' ' :: List.replicate 2005 'a') := by
  constructor
  · decide
  · rw [clean_long_input, clean_long_input_twice]
    intro heq
    have hlen := congrArg List.length heq
    simp only [List.length_append, List.length_replicate,
      List.length_cons, List.length_nil,
      show ("...".toList).length = 3 from rfl] at hlen
    omega

/-! ### Claims C3, C4, C5: selector choice, length threshold, keyword guard -/

/-- `longerOf` never shrinks the accumulator. -/
theorem longerOf_ge_left (acc u : List Char) :
    acc.length ≤ (longerOf acc u).length := by
  unfold longerOf
  split_ifs <;> omega

/-- `longerOf` is at least as long as its right argument. -/
theorem longerOf_ge_right (acc u : List Char) :
    u.length ≤ (longerOf acc u).length := by
  unfold longerOf
  split_ifs <;> omega

/-- `longerOf` returns one of its arguments. -/
theorem longerOf_cases (acc u : List Char) :
    longerOf acc u = acc ∨ longerOf acc u = u := by
  unfold longerOf
  split_ifs
  · exact Or.inr rfl
  · exact Or.inl rfl

/-- The inner fold of `maxByLen` never shrinks the accumulator. -/
theorem foldl_longerOf_ge_init :
    ∀ (ts : List (List Char)) (acc : List Char),
      acc.length ≤ (ts.foldl longerOf acc).length
  | [], _ => le_refl _
  | u :: ts, acc =>
    le_trans (longerOf_ge_left acc u) (foldl_longerOf_ge_init ts (longerOf acc u))

/-- The inner fold of `maxByLen` dominates every list element. -/
theorem foldl_longerOf_ge_mem :
    ∀ (ts : List (List Char)) (acc u : List Char), u ∈ ts →
      u.length ≤ (ts.foldl longerOf acc).length
  | v :: ts, acc, u, h => by
    rcases List.mem_cons.mp h with rfl | h'
    · exact le_trans (longerOf_ge_right acc u) (foldl_longerOf_ge_init ts _)
    · exact foldl_longerOf_ge_mem ts (longerOf acc v) u h'

/-- The inner fold of `maxByLen` returns the accumulator or a list element. -/
theorem foldl_longerOf_mem :
    ∀ (ts : List (List Char)) (acc : List Char),
      ts.foldl longerOf acc = acc ∨ ts.foldl longerOf acc ∈ ts
  | [], _ => Or.inl rfl
  | v :: ts, acc => by
    rcases foldl_longerOf_mem ts (longerOf acc v) with h | h
    · rw [List.foldl_cons, h]
      rcases longerOf_cases acc v with h' | h'
      · exact Or.inl h'
      · exact Or.inr (by rw [h']; exact List.mem_cons_self v ts)
    · exact Or.inr (List.mem_cons_of_mem v h)

/-- `maxByLen` dominates every element of its input. -/
theorem maxByLen_ge (ts : List (List Char)) (u : List Char) (h : u ∈ ts) :
    u.length ≤ (maxByLen ts).length := by
  cases ts with
  | nil => cases h
  | cons t ts' =>
    rcases List.mem_cons.mp h with rfl | h'
    · exact foldl_longerOf_ge_init ts' u
    · exact foldl_longerOf_ge_mem ts' t u h'

/-- `maxByLen` of a non-empty list is one of its elements. -/
theorem maxByLen_mem (t : List Char) (ts : List (List Char)) :
    maxByLen (t :: ts) ∈ t :: ts := by
  rcases foldl_longerOf_mem ts t with h | h
  · rw [show maxByLen (t :: ts) = ts.foldl longerOf t from rfl, h]
    exact List.mem_cons_self t ts
  · exact List.mem_cons_of_mem t h

/-- `selectorStep` never shrinks the candidate. -/
theorem selectorStep_ge_desc (desc : List Char) (texts : List (List Char)) :
    desc.length ≤ (selectorStep desc texts).length := by
  cases texts with
  | nil => exact le_refl _
  | cons t ts =>
    simp only [selectorStep]
    split_ifs <;> omega

/-- `selectorStep` dominates every text the rule matched. -/
theorem selectorStep_ge_mem (desc : List Char) (texts : List (List Char))
    (u : List Char) (h : u ∈ texts) :
    u.length ≤ (selectorStep desc texts).length := by
  cases texts with
  | nil => cases h
  | cons t ts =>
    have hmax : u.length ≤ (maxByLen (t :: ts)).length := maxByLen_ge _ u h
    simp only [selectorStep]
    split_ifs with hlt
    · exact hmax
    · omega

/-- `selectorStep` keeps the candidate or picks a matched text. -/
theorem selectorStep_cases (desc : List Char) (texts : List (List Char)) :
    selectorStep desc texts = desc ∨ selectorStep desc texts ∈ texts := by
  cases texts with
  | nil => exact Or.inl rfl
  | cons t ts =>
    simp only [selectorStep]
    split_ifs
    · exact Or.inr (maxByLen_mem t ts)
    · exact Or.inl rfl

/-- The selector fold never shrinks the candidate. -/
theorem sel_foldl_ge_init :
    ∀ (results : List (List (List Char))) (desc : List Char),
      desc.length ≤ (results.foldl selectorStep desc).length
  | [], _ => le_refl _
  | texts :: rs, desc =>
    le_trans (selectorStep_ge_desc desc texts)
      (sel_foldl_ge_init rs (selectorStep desc texts))

/-- The selector fold dominates every text matched by every rule. -/
theorem sel_foldl_ge_mem :
    ∀ (results : List (List (List Char))) (desc : List Char)
      (texts : List (List Char)) (t : List Char),
      texts ∈ results → t ∈ texts →
      t.length ≤ (results.foldl selectorStep desc).length
  | R :: rs, desc, texts, t, hR, ht => by
    rcases List.mem_cons.mp hR with rfl | hR'
    · exact le_trans (selectorStep_ge_mem desc texts t ht)
        (sel_foldl_ge_init rs _)
    · exact sel_foldl_ge_mem rs (selectorStep desc R) texts t hR' ht

/-- The selector fold returns the initial candidate or a matched text. -/
theorem sel_foldl_attain :
    ∀ (results : List (List (List Char))) (desc : List Char),
      results.foldl selectorStep desc = desc ∨
      ∃ texts, texts ∈ results ∧ results.foldl selectorStep desc ∈ texts
  | [], _ => Or.inl rfl
  | R :: rs, desc => by
    rcases sel_foldl_attain rs (selectorStep desc R) with h | ⟨texts, h1, h2⟩
    · rw [List.foldl_cons, h]
      rcases selectorStep_cases desc R with h' | h'
      · exact Or.inl h'
      · exact Or.inr ⟨R, List.mem_cons_self R rs, h'⟩
    · exact Or.inr ⟨texts, List.mem_cons_of_mem R h1, h2⟩

/-- A single-text rule applied to the empty initial candidate yields that
text. -/
theorem selectorStep_nil_single (a : List Char) : selectorStep [] [a] = a := by
  simp only [selectorStep, maxByLen, List.foldl_nil, List.length_nil]
  split_ifs with h
  · rfl
  · cases a with
    | nil => rfl
    | cons c t => simp at h

/-- Two-rule evaluation of the selector in closed form. -/
theorem selectDescription_pair (a b : List Char) :
    selectDescription [[a], [b]] =
      if a.length < b.length then b else a := by
  show selectorStep (selectorStep [] [a]) [b] = _
  rw [selectorStep_nil_single]
  simp only [selectorStep, maxByLen, List.foldl_nil]

/-- Claim C5: the candidate text chosen before cleaning dominates in length
every text matched by any rule and is itself one of the matched texts (or the
empty initial candidate); a strictly longer match from a later rule beats an
earlier shorter one, and on equal lengths the earlier rule's text wins. -/
theorem C5_longest_match :
    (∀ (results : List (List (List Char))) (texts : List (List Char))
        (t : List Char), texts ∈ results → t ∈ texts →
        t.length ≤ (selectDescription results).length) ∧
    (∀ results : List (List (List Char)),
        selectDescription results = [] ∨
        ∃ texts, texts ∈ results ∧ selectDescription results ∈ texts) ∧
    (∀ a b : List Char, a.length < b.length →
        selectDescription [[a], [b]] = b) ∧
    (∀ a b : List Char, a.length = b.length →
        selectDescription [[a], [b]] = a) := by
  refine ⟨?_, ?_, ?_, ?_⟩
  · intro results texts t hR ht
    exact sel_foldl_ge_mem results [] texts t hR ht
  · intro results
    exact sel_foldl_attain results []
  · intro a b h
    rw [selectDescription_pair, if_pos h]
  · intro a b h
    rw [selectDescription_pair, if_neg (by omega)]

/-- Witness for `C5_longest_match` on concrete rule sets: a longer later
match wins, an equal-length later match loses, and the chosen text dominates
a matched text. -/
theorem C5_longest_match_witness :
    selectDescription [["short".toList], ["a much longer text".toList]] =
      "a much longer text".toList ∧
    selectDescription [["abc".toList], ["xyz".toList]] = "abc".toList ∧
    "ab".toList.length ≤ (selectDescription [["ab".toList]]).length :=
  ⟨C5_longest_match.2.2.1 "short".toList "a much longer text".toList (by decide),
   C5_longest_match.2.2.2 "abc".toList "xyz".toList (by decide),
   C5_longest_match.1 [["ab".toList]] ["ab".toList] "ab".toList
     (by decide) (by decide)⟩

/-- Claim C3, counterexample: on a page whose winning cleaned text has length
exactly 50, the code returns the "No description found" sentinel, not the
cleaned text, because the source comparison is `len(description) > 50`, not
`>= 50` as the claim's reading would require. -/
theorem C3_counterexample :
    (clean_description (selectDescription
        [["abcdefghijklmnopqrstuvwxyzabcdefghijklmnopqrstuvwx".toList]])).length
      = 50 ∧
    extract_description_success
        [["abcdefghijklmnopqrstuvwxyzabcdefghijklmnopqrstuvwx".toList]] =
      noDescriptionFound ∧
    extract_description_success
        [["abcdefghijklmnopqrstuvwxyzabcdefghijklmnopqrstuvwx".toList]] ≠
      clean_description (selectDescription
        [["abcdefghijklmnopqrstuvwxyzabcdefghijklmnopqrstuvwx".toList]]) := by
  refine ⟨by decide, by decide, by decide⟩

/-- Claim C3, amended: the sentinel is returned exactly when the cleaned
winning text has length at most 50 (not strictly less than 50), and the
cleaned text itself is returned exactly when it is strictly longer than
50 characters. -/
theorem C3_amended (results : List (List (List Char))) :
    (extract_description_success results = noDescriptionFound ↔
      (clean_description (selectDescription results)).length ≤ 50) ∧
    (50 < (clean_description (selectDescription results)).length →
      extract_description_success results =
        clean_description (selectDescription results)) := by
  unfold extract_description_success
  split_ifs with h
  · constructor
    · constructor
      · intro he
        rw [he]
        decide
      · intro hle
        omega
    · intro
      rfl
  · constructor
    · constructor
      · intro
        omega
      · intro
        rfl
    · intro h50
      exact absurd h50 h

/-- Witness for `C3_amended` on a page with one 60-character matched text. -/
theorem C3_amended_witness :
    extract_description_success
        [["abcdefghijklmnopqrstuvwxyzabcdefghijklmnopqrstuvwxyzabcdefg".toList]] =
      clean_description (selectDescription
        [["abcdefghijklmnopqrstuvwxyzabcdefghijklmnopqrstuvwxyzabcdefg".toList]]) :=
  (C3_amended _).2 (by decide)

/-- Claim C4, counterexample: the guard of `extract_nlp_features` tests only
the empty string and the "No description found" sentinel, so the
"Error extracting description" sentinel does NOT short-circuit: it reaches
the lexicon evaluation (which happens to yield all zeros). -/
theorem C4_counterexample :
    nlpGuard errorSentinel = false ∧
    extract_nlp_features errorSentinel = zeroFeatures := by
  refine ⟨by decide, by decide⟩

/-- Claim C4, amended: all three inputs — the empty string and both
sentinels — yield the all-zero indicator record, but only the empty string
and "No description found" are short-circuited by the guard; the error
sentinel is evaluated against the lexicons, which happen to contain none of
its substrings. -/
theorem C4_amended :
    extract_nlp_features [] = zeroFeatures ∧
    extract_nlp_features noDescriptionFound = zeroFeatures ∧
    extract_nlp_features errorSentinel = zeroFeatures ∧
    nlpGuard [] = true ∧
    nlpGuard noDescriptionFound = true ∧
    nlpGuard errorSentinel = false := by
  refine ⟨by decide, by decide, by decide, by decide, by decide, by decide⟩

end Housing
